import Mathlib

/-!
Verification of the queue/player controller and the station refill
coordinator of a command-line streaming music client.

The embedding follows the two source components:

* `sc_cli/core/player.py` — class `Player`: an ordered queue of tracks, an
  integer cursor `current_index` (`-1` means idle), a `RepeatMode`, and the
  operations `play_now`, `add_to_queue`, `next`, `prev`,
  `remove_from_queue`, `shuffle_queue`, `clear_queue`, `current_track`.
* `sc_cli/repl.py` — station mode: `start_station`,
  `_fetch_station_tracks`, `_check_station_refill`, `next_track`, with the
  state fields `station_mode`, `station_query`, `station_next_href`,
  `seen_track_ids`, `fetching_station`.

Python integers are unbounded, so the cursor is an `Int`.  External
collaborators (the mpv playback engine, the HTTP catalog client) are kept
out of the state: the catalog's answer to one `search_tracks` call is
passed in as an explicit `Except` value (an exception or a pair of a track
list and an optional continuation href), the permutation chosen by
`random.shuffle` is passed in as the shuffled list, and terminal output is
collected as a list of messages.
-/

set_option autoImplicit false

namespace ScCli

/-- A track, as stored in the player queue.  The source keeps tracks as
Python dictionaries; the station code reads `t.get("id")` (which may be
absent) and equality of tracks (used by `list.index` in `shuffle_queue`)
is Python value equality, which the derived `DecidableEq` models.  The
`title` field stands for the rest of the metadata bag. -/
structure Track where
  id : Option Nat
  title : String
deriving DecidableEq, Repr

/-- Enumeration `RepeatMode` from `player.py`. -/
inductive RepeatMode where
  | OFF
  | ONE
  | ALL
deriving DecidableEq, Repr

/-- The queue-related state of class `Player`: fields `queue`,
`current_index` and `repeat_mode` set up in `Player.__init__`. -/
structure PlayerState where
  queue : List Track
  current_index : Int
  repeat_mode : RepeatMode
deriving DecidableEq, Repr

/-- Constructor state of `Player.__init__`: empty queue, cursor `-1`,
repeat off. -/
def initState : PlayerState :=
  { queue := [], current_index := -1, repeat_mode := RepeatMode.OFF }

namespace Player

/-- Method `Player.current_track`: the element at `current_index` when
`0 <= current_index < len(queue)`, otherwise `None`. -/
def current_track (s : PlayerState) : Option Track :=
  if 0 ≤ s.current_index ∧ s.current_index < (s.queue.length : Int) then
    s.queue[s.current_index.toNat]?
  else
    none

/-- Method `Player.play_now` (ignoring the stream load): replace the queue with
the single given track and set the cursor to `0`. -/
def play_now (s : PlayerState) (track : Track) : PlayerState :=
  { s with queue := [track], current_index := 0 }

/-- Method `Player.add_to_queue`: append a track at the end of the queue. -/
def add_to_queue (s : PlayerState) (track : Track) : PlayerState :=
  { s with queue := s.queue ++ [track] }

/-- Method `Player.next`: with repeat ONE return the current track unchanged;
otherwise advance the cursor if possible; with repeat ALL wrap to index 0
on a non-empty queue; otherwise return `None`. -/
def next (s : PlayerState) : Option Track × PlayerState :=
  if s.repeat_mode = RepeatMode.ONE then
    (current_track s, s)
  else if s.current_index + 1 < (s.queue.length : Int) then
    let s' := { s with current_index := s.current_index + 1 }
    (s'.queue[s'.current_index.toNat]?, s')
  else if s.repeat_mode = RepeatMode.ALL ∧ s.queue ≠ [] then
    let s' := { s with current_index := 0 }
    (s'.queue[0]?, s')
  else
    (none, s)

/-- Method `Player.prev`: decrement the cursor when `current_index - 0 > 0`,
otherwise return `None`.  No wraparound. -/
def prev (s : PlayerState) : Option Track × PlayerState :=
  if s.current_index - 0 > 0 then
    let s' := { s with current_index := s.current_index - 1 }
    (s'.queue[s'.current_index.toNat]?, s')
  else
    (none, s)

/-- Method `Player.remove_from_queue`: fail when the index is out of bounds or
names the current track; otherwise pop the element and, when it was before
the cursor, pull the cursor back by one. -/
def remove_from_queue (s : PlayerState) (index : Int) : Bool × PlayerState :=
  if 0 ≤ index ∧ index < (s.queue.length : Int) then
    if index = s.current_index then
      (false, s)
    else
      let q := s.queue.eraseIdx index.toNat
      let i := if index < s.current_index then s.current_index - 1 else s.current_index
      (true, { s with queue := q, current_index := i })
  else
    (false, s)

/-- Method `Player.shuffle_queue`.  The outcome of `random.shuffle` is passed in
as `shuffled`.  On an empty queue nothing happens.  When a current track
exists the code looks its position up in the shuffled list
(`list.index`, falling back to `0` when a `ValueError` says it is not
there); otherwise the cursor is set to `-1`. -/
def shuffle_queue (s : PlayerState) (shuffled : List Track) : PlayerState :=
  if s.queue = [] then
    s
  else
    match current_track s with
    | some t =>
        if t ∈ shuffled then
          { s with queue := shuffled, current_index := (shuffled.indexOf t : Int) }
        else
          { s with queue := shuffled, current_index := 0 }
    | none =>
        { s with queue := shuffled, current_index := -1 }

/-- Method `Player.clear_queue` (ignoring the engine stop): empty queue, cursor
`-1`. -/
def clear_queue (s : PlayerState) : PlayerState :=
  { s with queue := [], current_index := -1 }

end Player

/-- One controller operation, as invoked from the REPL command surface.
The `shuffleOp` constructor carries the permutation that `random.shuffle`
produced; `playNow` carries the track (the stream URL only feeds the
engine). -/
inductive Op where
  | playNow (t : Track)
  | enqueue (t : Track)
  | nextOp
  | prevOp
  | removeAt (i : Int)
  | shuffleOp (shuffled : List Track)
  | clearOp
deriving DecidableEq, Repr

/-- Apply one operation to the player state, dropping the returned
track/flag. -/
def applyOp (s : PlayerState) : Op → PlayerState
  | Op.playNow t => Player.play_now s t
  | Op.enqueue t => Player.add_to_queue s t
  | Op.nextOp => (Player.next s).2
  | Op.prevOp => (Player.prev s).2
  | Op.removeAt i => (Player.remove_from_queue s i).2
  | Op.shuffleOp l => Player.shuffle_queue s l
  | Op.clearOp => Player.clear_queue s

/-- Environment assumption for an operation: `random.shuffle` permutes the
queue in place, so a `shuffleOp` always carries a permutation of the
current queue.  All other operations take arbitrary arguments. -/
def validOp (s : PlayerState) : Op → Prop
  | Op.shuffleOp l => l.Perm s.queue
  | _ => True

/-- States reachable from the freshly constructed player by controller
operations. -/
inductive Reachable : PlayerState → Prop where
  | init : Reachable initState
  | step {s : PlayerState} {op : Op} :
      Reachable s → validOp s op → Reachable (applyOp s op)

/-- The cursor invariant: `current_index` is `-1` or a valid index. -/
def cursorOK (s : PlayerState) : Prop :=
  s.current_index = -1 ∨
    (0 ≤ s.current_index ∧ s.current_index < (s.queue.length : Int))

instance (s : PlayerState) : Decidable (cursorOK s) := by
  unfold cursorOK; infer_instance

/-- Iterated `Player.next`, keeping only the state. -/
def nextIter (s : PlayerState) : Nat → PlayerState
  | 0 => s
  | k + 1 => (Player.next (nextIter s k)).2

/-- The state obtained from a fresh player by enqueueing the given tracks
in order (`add_to_queue` for each). -/
def enqueueAll (l : List Track) : PlayerState :=
  l.foldl Player.add_to_queue initState

/-- The station-mode fields of the REPL (`station_mode`, `station_query`,
`station_next_href`, `seen_track_ids`, `fetching_station`) together with
the player they drive. -/
structure ReplState where
  player : PlayerState
  station_mode : Bool
  station_query : String
  station_next_href : Option String
  seen_track_ids : Finset Nat
  fetching_station : Bool
deriving DecidableEq

/-- Messages printed by the station code (`print_rich` calls), abstracted
to their identity. -/
inductive Msg where
  | startingStation (query : String)
  | fetchingTracks
  | noNewUnique
  | autoPlaying
  | fetchError (e : String)
  | couldNotStart
  | endOfQueue
  | nowPlaying (t : Track)
deriving DecidableEq, Repr

/-- One answer of the catalog client `search_tracks`: either a raised
exception or a pair of the returned tracks and `next_href`. -/
abbrev FetchResult := Except String (List Track × Option String)

/-- Python truthiness of the optional `next_href` string: `None` and the
empty string are falsy. -/
def hrefTruthy : Option String → Bool
  | none => false
  | some s => !s.isEmpty

/-- Python truthiness of `t.get("id")`: absent and `0` are falsy. -/
def idTruthy : Option Nat → Bool
  | none => false
  | some n => decide (n ≠ 0)

namespace REPL

/-- One iteration of the fill loop of `_fetch_station_tracks`: skip the
track unless its id is truthy and unseen; otherwise record the id, append
the track, and count it.  The accumulator is (player, seen ids, number of
tracks added). -/
def stationAdd (acc : PlayerState × Finset Nat × Nat) (t : Track) :
    PlayerState × Finset Nat × Nat :=
  match t.id with
  | some tid =>
      if tid ≠ 0 ∧ tid ∉ acc.2.1 then
        (Player.add_to_queue acc.1 t, insert tid acc.2.1, acc.2.2 + 1)
      else
        acc
  | none => acc

/-- Method `REPL.next_track` as it runs from inside `_fetch_station_tracks`:
play the track `Player.next` yields; on `None`, the station branch calls
`_fetch_station_tracks` again, but `fetching_station` is true for the
whole enclosing fetch, so that nested call returns at its guard with no
effect. -/
def nextTrackInFetch (r : ReplState) : ReplState × List Msg :=
  match Player.next r.player with
  | (some t, p') => ({ r with player := p' }, [Msg.nowPlaying t])
  | (none, p') =>
      if r.station_mode then
        ({ r with player := p' }, [])
      else
        ({ r with player := p' }, [Msg.endOfQueue])

/-- Method `REPL._fetch_station_tracks`, with the catalog's answer passed in as
`result`.  A call while `fetching_station` is true returns at the guard.
Otherwise the flag is set for the duration of the body and cleared in the
`finally`; an exception from `search_tracks` is caught and reported after
the "Fetching" message.  On success the continuation href is stored, the
tracks are filtered into the queue, and when the cursor sat at the end of
the pre-fill queue the code either auto-advances (cursor not idle) or
merely prints. -/
def fetchStationTracks (r : ReplState) (result : FetchResult) :
    ReplState × List Msg :=
  if r.fetching_station then
    (r, [])
  else
    match result with
    | Except.error e =>
        ({ r with fetching_station := false },
         [Msg.fetchingTracks, Msg.fetchError e])
    | Except.ok (tracks, nh) =>
        let was_at_end : Bool :=
          decide ((r.player.queue.length : Int) - 1 ≤ r.player.current_index)
        let filled := tracks.foldl stationAdd (r.player, r.seen_track_ids, 0)
        let r2 : ReplState :=
          { r with station_next_href := nh, player := filled.1,
                   seen_track_ids := filled.2.1 }
        if filled.2.2 = 0 then
          ({ r2 with fetching_station := false },
           [Msg.fetchingTracks, Msg.noNewUnique])
        else if was_at_end then
          if r.player.current_index ≠ -1 then
            let stepped := nextTrackInFetch r2
            ({ stepped.1 with fetching_station := false },
             Msg.fetchingTracks :: Msg.autoPlaying :: stepped.2)
          else
            ({ r2 with fetching_station := false },
             [Msg.fetchingTracks, Msg.autoPlaying])
        else
          ({ r2 with fetching_station := false }, [Msg.fetchingTracks])

/-- Method `REPL.next_track` at top level: play what `Player.next` yields; on
`None` either refill the station (the catalog's answer to that nested
fetch is `fetchResult`) or report the end of the queue. -/
def nextTrack (r : ReplState) (fetchResult : FetchResult) :
    ReplState × List Msg :=
  match Player.next r.player with
  | (some t, p') => ({ r with player := p' }, [Msg.nowPlaying t])
  | (none, p') =>
      if r.station_mode then
        fetchStationTracks { r with player := p' } fetchResult
      else
        ({ r with player := p' }, [Msg.endOfQueue])

/-- Method `REPL.start_station`: set the station fields afresh, clear the queue,
run one synchronous fetch (answer `result`), then either kick playback via
`next_track` (whose own hypothetical refill would be answered by
`result2`) or report failure and leave station mode. -/
def startStation (r : ReplState) (query : String)
    (result result2 : FetchResult) : ReplState × List Msg :=
  let r0 : ReplState :=
    { r with station_mode := true, station_query := query,
             seen_track_ids := ∅, station_next_href := none,
             player := Player.clear_queue r.player }
  let fetched := fetchStationTracks r0 result
  if fetched.1.player.queue ≠ [] then
    let stepped := nextTrack fetched.1 result2
    (stepped.1, Msg.startingStation query :: fetched.2 ++ stepped.2)
  else
    ({ fetched.1 with station_mode := false },
     Msg.startingStation query :: fetched.2 ++ [Msg.couldNotStart])

/-- Method `REPL._check_station_refill`: decide whether a background
`_fetch_station_tracks` thread is started.  Nothing happens outside
station mode; otherwise a fetch is scheduled when fewer than 5 tracks
remain after the cursor and the continuation href is truthy. -/
def checkStationRefill (r : ReplState) : Bool :=
  if !r.station_mode then
    false
  else
    let remaining : Int := (r.player.queue.length : Int) - 1 - r.player.current_index
    decide (remaining < 5) && hrefTruthy r.station_next_href

/-- Run a sequence of `_fetch_station_tracks` calls, feeding each the next
catalog answer. -/
def fetchSeq (r : ReplState) : List FetchResult → ReplState
  | [] => r
  | res :: rest => fetchSeq (fetchStationTracks r res).1 rest

end REPL

/-- The (truthy or not) identifiers of the tracks of a queue, in order. -/
def queueIds (q : List Track) : List Nat :=
  q.filterMap (fun t => t.id)

/-! ### Helper lemmas about the player operations -/

lemma current_track_mem {s : PlayerState} {t : Track}
    (h : Player.current_track s = some t) : t ∈ s.queue := by
  unfold Player.current_track at h
  split_ifs at h
  exact List.getElem?_mem h

lemma cursorOK_play_now (s : PlayerState) (t : Track) :
    cursorOK (Player.play_now s t) := by
  right
  simp [Player.play_now]

lemma cursorOK_add_to_queue {s : PlayerState} (t : Track) (h : cursorOK s) :
    cursorOK (Player.add_to_queue s t) := by
  rcases h with h | h
  · left; simpa [Player.add_to_queue] using h
  · right
    simp only [Player.add_to_queue, List.length_append, List.length_cons,
      List.length_nil]
    omega

lemma cursorOK_next {s : PlayerState} (h : cursorOK s) :
    cursorOK (Player.next s).2 := by
  unfold Player.next
  split_ifs with h1 h2 h3
  · exact h
  · right
    simp only []
    rcases h with h | h <;> omega
  · right
    simp only []
    rcases h3 with ⟨-, hq⟩
    have : s.queue.length ≠ 0 := by simpa using List.length_pos.mpr hq |>.ne'
    omega
  · exact h

lemma cursorOK_prev {s : PlayerState} (h : cursorOK s) :
    cursorOK (Player.prev s).2 := by
  unfold Player.prev
  split_ifs with h1
  · right
    simp only []
    rcases h with h | h <;> omega
  · exact h

lemma cursorOK_remove_from_queue {s : PlayerState} (i : Int) (h : cursorOK s) :
    cursorOK (Player.remove_from_queue s i).2 := by
  unfold Player.remove_from_queue
  split_ifs with h1 h2 h3
  · exact h
  · have hlen : (s.queue.eraseIdx i.toNat).length = s.queue.length - 1 := by
      rw [List.length_eraseIdx]
      have hi : i.toNat < s.queue.length := by omega
      simp [hi]
    rcases h with h | h
    · exfalso; omega
    · right
      simp only [hlen]
      omega
  · have hlen : (s.queue.eraseIdx i.toNat).length = s.queue.length - 1 := by
      rw [List.length_eraseIdx]
      have hi : i.toNat < s.queue.length := by omega
      simp [hi]
    rcases h with h | h
    · left; simpa using h
    · right
      simp only [hlen]
      have hgt : s.current_index < i := by omega
      omega
  · exact h

lemma cursorOK_shuffle_queue {s : PlayerState} {shuffled : List Track}
    (hp : shuffled.Perm s.queue) (h : cursorOK s) :
    cursorOK (Player.shuffle_queue s shuffled) := by
  unfold Player.shuffle_queue
  split_ifs with h1
  · exact h
  · cases hc : Player.current_track s with
    | none => left; rfl
    | some t =>
        have hmem : t ∈ shuffled := hp.mem_iff.mpr (current_track_mem hc)
        simp only [hmem, if_pos]
        right
        refine ⟨?_, ?_⟩
        · show (0 : Int) ≤ ((shuffled.indexOf t : Nat) : Int)
          exact Int.natCast_nonneg _
        · show ((shuffled.indexOf t : Nat) : Int) < ((shuffled.length : Nat) : Int)
          exact_mod_cast List.indexOf_lt_length.mpr hmem

lemma cursorOK_clear_queue (s : PlayerState) :
    cursorOK (Player.clear_queue s) := by
  left; rfl

lemma cursorOK_init : cursorOK initState := by
  left; rfl

lemma foldl_add_to_queue (s : PlayerState) (l : List Track) :
    l.foldl Player.add_to_queue s = { s with queue := s.queue ++ l } := by
  induction l generalizing s with
  | nil => simp
  | cons t ts ih =>
      rw [List.foldl_cons, ih]
      simp [Player.add_to_queue]

lemma enqueueAll_eq (l : List Track) :
    enqueueAll l = { queue := l, current_index := -1,
                     repeat_mode := RepeatMode.OFF } := by
  rw [enqueueAll, foldl_add_to_queue]
  rfl

lemma next_off (l : List Track) (i : Int) :
    Player.next ⟨l, i, RepeatMode.OFF⟩ =
      if i + 1 < (l.length : Int) then
        (l[(i + 1).toNat]?, ⟨l, i + 1, RepeatMode.OFF⟩)
      else
        (none, ⟨l, i, RepeatMode.OFF⟩) := by
  unfold Player.next
  dsimp only
  rw [if_neg (by decide : ¬(RepeatMode.OFF = RepeatMode.ONE))]
  split_ifs with h h2
  · rfl
  · exact h2.1.elim
  · rfl

lemma nextIter_off (l : List Track) (k : Nat) :
    nextIter ⟨l, -1, RepeatMode.OFF⟩ k =
      ⟨l, ((min k l.length : Nat) : Int) - 1, RepeatMode.OFF⟩ := by
  induction k with
  | zero =>
      simp [nextIter]
  | succ k ih =>
      rw [nextIter, ih, next_off]
      split_ifs with h
      · simp only [PlayerState.mk.injEq, true_and, and_true]
        push_cast at h ⊢
        omega
      · simp only [PlayerState.mk.injEq, true_and, and_true]
        push_cast at h ⊢
        omega

lemma next_queue (p : PlayerState) : (Player.next p).2.queue = p.queue := by
  unfold Player.next
  split_ifs <;> rfl

/-- The station dedup invariant: the identifiers present in the queue are
pairwise distinct and all recorded in the seen-set. -/
def stationInv (r : ReplState) : Prop :=
  (queueIds r.player.queue).Nodup
  ∧ ∀ n ∈ queueIds r.player.queue, n ∈ r.seen_track_ids

lemma stationAdd_player (acc : PlayerState × Finset Nat × Nat) (t : Track) :
    (REPL.stationAdd acc t).1.current_index = acc.1.current_index
    ∧ (REPL.stationAdd acc t).1.repeat_mode = acc.1.repeat_mode
    ∧ ∃ ext, (REPL.stationAdd acc t).1.queue = acc.1.queue ++ ext := by
  unfold REPL.stationAdd
  cases htid : t.id with
  | none => exact ⟨rfl, rfl, [], by simp⟩
  | some tid =>
      dsimp only
      split_ifs with hcond
      · exact ⟨rfl, rfl, [t], rfl⟩
      · exact ⟨rfl, rfl, [], by simp⟩

lemma stationAdd_fold_player (tracks : List Track) :
    ∀ acc : PlayerState × Finset Nat × Nat,
      (tracks.foldl REPL.stationAdd acc).1.current_index =
        acc.1.current_index
      ∧ (tracks.foldl REPL.stationAdd acc).1.repeat_mode = acc.1.repeat_mode
      ∧ ∃ ext, (tracks.foldl REPL.stationAdd acc).1.queue =
          acc.1.queue ++ ext := by
  induction tracks with
  | nil => exact fun acc => ⟨rfl, rfl, [], by simp⟩
  | cons t ts ih =>
      intro acc
      rw [List.foldl_cons]
      obtain ⟨h1, h2, ext1, h3⟩ := stationAdd_player acc t
      obtain ⟨g1, g2, ext2, g3⟩ := ih (REPL.stationAdd acc t)
      refine ⟨g1.trans h1, g2.trans h2, ext1 ++ ext2, ?_⟩
      rw [g3, h3, List.append_assoc]

lemma stationAdd_fold_inv (tracks : List Track) :
    ∀ (p : PlayerState) (seen : Finset Nat) (k : Nat),
      (queueIds p.queue).Nodup →
      (∀ n ∈ queueIds p.queue, n ∈ seen) →
      (queueIds (tracks.foldl REPL.stationAdd (p, seen, k)).1.queue).Nodup
      ∧ ∀ n ∈ queueIds (tracks.foldl REPL.stationAdd (p, seen, k)).1.queue,
          n ∈ (tracks.foldl REPL.stationAdd (p, seen, k)).2.1 := by
  induction tracks with
  | nil => exact fun p seen k hnd hsub => ⟨hnd, hsub⟩
  | cons t ts ih =>
      intro p seen k hnd hsub
      rw [List.foldl_cons]
      cases hid : t.id with
      | none =>
          have hstep : REPL.stationAdd (p, seen, k) t = (p, seen, k) := by
            unfold REPL.stationAdd
            rw [hid]
          rw [hstep]
          exact ih p seen k hnd hsub
      | some tid =>
          by_cases hcond : tid ≠ 0 ∧ tid ∉ seen
          · have hstep : REPL.stationAdd (p, seen, k) t =
                (Player.add_to_queue p t, insert tid seen, k + 1) := by
              unfold REPL.stationAdd
              rw [hid]
              dsimp only
              rw [if_pos hcond]
            rw [hstep]
            have hq : queueIds (Player.add_to_queue p t).queue =
                queueIds p.queue ++ [tid] := by
              unfold Player.add_to_queue queueIds
              rw [List.filterMap_append]
              simp [hid, queueIds]
            apply ih
            · rw [hq, List.nodup_append]
              refine ⟨hnd, List.nodup_singleton _, ?_⟩
              intro n hn hmem
              have : n = tid := by simpa using hmem
              exact hcond.2 (this ▸ hsub n hn)
            · intro n hn
              rw [hq] at hn
              rcases List.mem_append.mp hn with hn | hn
              · exact Finset.mem_insert_of_mem (hsub n hn)
              · have : n = tid := by simpa using hn
                rw [this]
                exact Finset.mem_insert_self _ _
          · have hstep : REPL.stationAdd (p, seen, k) t = (p, seen, k) := by
              unfold REPL.stationAdd
              rw [hid]
              dsimp only
              rw [if_neg hcond]
            rw [hstep]
            exact ih p seen k hnd hsub

lemma nextTrackInFetch_fields (r : ReplState) :
    (REPL.nextTrackInFetch r).1.player.queue = r.player.queue
    ∧ (REPL.nextTrackInFetch r).1.seen_track_ids = r.seen_track_ids := by
  unfold REPL.nextTrackInFetch
  cases hnx : Player.next r.player with
  | mk tr p' =>
      have hq : p'.queue = r.player.queue := by
        have := next_queue r.player
        rw [hnx] at this
        exact this
      cases tr with
      | some t => exact ⟨hq, rfl⟩
      | none =>
          dsimp only
          split_ifs <;> exact ⟨hq, rfl⟩

lemma fetch_inv (r : ReplState) (res : FetchResult) (h : stationInv r) :
    stationInv (REPL.fetchStationTracks r res).1 := by
  unfold REPL.fetchStationTracks
  by_cases hg : r.fetching_station = true
  · rw [if_pos hg]
    exact h
  rw [if_neg hg]
  cases res with
  | error e => exact h
  | ok pr =>
      obtain ⟨tracks, nh⟩ := pr
      dsimp only
      have hcore := stationAdd_fold_inv tracks r.player r.seen_track_ids 0
        h.1 h.2
      split_ifs with h0 h1 h2
      · exact hcore
      · have hf := nextTrackInFetch_fields
          { r with station_next_href := nh,
                   player := (tracks.foldl REPL.stationAdd
                     (r.player, r.seen_track_ids, 0)).1,
                   seen_track_ids := (tracks.foldl REPL.stationAdd
                     (r.player, r.seen_track_ids, 0)).2.1 }
        constructor
        · show (queueIds _).Nodup
          rw [hf.1]
          exact hcore.1
        · intro n hn
          rw [hf.1] at hn
          show n ∈ _
          rw [hf.2]
          exact hcore.2 n hn
      · exact hcore
      · exact hcore

lemma nextTrack_inv (r : ReplState) (res : FetchResult) (h : stationInv r) :
    stationInv (REPL.nextTrack r res).1 := by
  unfold REPL.nextTrack
  cases hnx : Player.next r.player with
  | mk tr p' =>
      have hq : p'.queue = r.player.queue := by
        have := next_queue r.player
        rw [hnx] at this
        exact this
      have hinv : stationInv { r with player := p' } := by
        constructor
        · show (queueIds p'.queue).Nodup
          rw [hq]
          exact h.1
        · intro n hn
          rw [show queueIds p'.queue = queueIds r.player.queue from by rw [hq]]
            at hn
          exact h.2 n hn
      cases tr with
      | some t => exact hinv
      | none =>
          dsimp only
          split_ifs with hsm
          · exact fetch_inv _ res hinv
          · exact hinv

lemma fetchSeq_inv (results : List FetchResult) :
    ∀ r : ReplState, stationInv r → stationInv (REPL.fetchSeq r results) := by
  induction results with
  | nil => exact fun r h => h
  | cons res rest ih =>
      intro r h
      rw [REPL.fetchSeq]
      exact ih _ (fetch_inv r res h)

lemma startStation_inv (r : ReplState) (q : String)
    (res res2 : FetchResult) :
    stationInv (REPL.startStation r q res res2).1 := by
  unfold REPL.startStation
  dsimp only
  have h0 : stationInv
      { r with station_mode := true, station_query := q,
               seen_track_ids := ∅, station_next_href := none,
               player := Player.clear_queue r.player } := by
    constructor
    · show (queueIds (Player.clear_queue r.player).queue).Nodup
      simp [Player.clear_queue, queueIds]
    · intro n hn
      simp [Player.clear_queue, queueIds] at hn
  split_ifs with hq
  · exact nextTrack_inv _ res2 (fetch_inv _ res h0)
  · exact fetch_inv _ res h0

lemma fetch_guard_eq (r : ReplState) (res : FetchResult)
    (h : r.fetching_station = true) :
    REPL.fetchStationTracks r res = (r, []) := by
  unfold REPL.fetchStationTracks
  rw [if_pos h]

lemma fetch_station_mode (r : ReplState) (res : FetchResult) :
    (REPL.fetchStationTracks r res).1.station_mode = r.station_mode := by
  unfold REPL.fetchStationTracks
  by_cases hg : r.fetching_station = true
  · rw [if_pos hg]
  · rw [if_neg hg]
    cases res with
    | error e => rfl
    | ok pr =>
        obtain ⟨tracks, nh⟩ := pr
        dsimp only
        split_ifs with h0 h1 h2
        · rfl
        · show (REPL.nextTrackInFetch _).1.station_mode = _
          unfold REPL.nextTrackInFetch
          cases hnx : Player.next ((tracks.foldl REPL.stationAdd
              (r.player, r.seen_track_ids, 0)).1) with
          | mk tr p' =>
              cases tr with
              | some t => rfl
              | none =>
                  dsimp only
                  split_ifs <;> rfl
        · rfl
        · rfl

lemma fetch_cleared (r : ReplState) (res : FetchResult)
    (hc : r.player.current_index = -1) (hf : r.fetching_station = false) :
    (REPL.fetchStationTracks r res).1.player.current_index = -1
    ∧ (REPL.fetchStationTracks r res).1.player.repeat_mode =
        r.player.repeat_mode := by
  unfold REPL.fetchStationTracks
  rw [if_neg (by simp [hf])]
  cases res with
  | error e => exact ⟨hc, rfl⟩
  | ok pr =>
      obtain ⟨tracks, nh⟩ := pr
      dsimp only
      obtain ⟨g1, g2, -⟩ :=
        stationAdd_fold_player tracks (r.player, r.seen_track_ids, 0)
      split_ifs with h0 h1 h2
      · exact ⟨g1.trans hc, g2⟩
      · exact absurd hc h2
      · exact ⟨g1.trans hc, g2⟩
      · exact ⟨g1.trans hc, g2⟩

lemma fetch_queue_ext (r : ReplState) (res : FetchResult) :
    ∃ ext, (REPL.fetchStationTracks r res).1.player.queue =
      r.player.queue ++ ext := by
  unfold REPL.fetchStationTracks
  by_cases hg : r.fetching_station = true
  · rw [if_pos hg]
    exact ⟨[], by simp⟩
  rw [if_neg hg]
  cases res with
  | error e => exact ⟨[], by simp⟩
  | ok pr =>
      obtain ⟨tracks, nh⟩ := pr
      dsimp only
      obtain ⟨-, -, ext, g3⟩ :=
        stationAdd_fold_player tracks (r.player, r.seen_track_ids, 0)
      split_ifs with h0 h1 h2
      · exact ⟨ext, g3⟩
      · refine ⟨ext, ?_⟩
        have hf := nextTrackInFetch_fields
          { r with station_next_href := nh,
                   player := (tracks.foldl REPL.stationAdd
                     (r.player, r.seen_track_ids, 0)).1,
                   seen_track_ids := (tracks.foldl REPL.stationAdd
                     (r.player, r.seen_track_ids, 0)).2.1 }
        show (REPL.nextTrackInFetch _).1.player.queue = _
        rw [hf.1]
        exact g3
      · exact ⟨ext, g3⟩
      · exact ⟨ext, g3⟩

lemma nextTrack_queue_ext (r : ReplState) (res : FetchResult) :
    ∃ ext, (REPL.nextTrack r res).1.player.queue =
      r.player.queue ++ ext := by
  unfold REPL.nextTrack
  cases hnx : Player.next r.player with
  | mk tr p' =>
      have hq : p'.queue = r.player.queue := by
        have := next_queue r.player
        rw [hnx] at this
        exact this
      cases tr with
      | some t => exact ⟨[], by simp [hq]⟩
      | none =>
          dsimp only
          split_ifs with hsm
          · obtain ⟨ext, hext⟩ :=
              fetch_queue_ext { r with player := p' } res
            refine ⟨ext, ?_⟩
            rw [hext]
            show p'.queue ++ ext = _
            rw [hq]
          · exact ⟨[], by simp [hq]⟩

lemma fetch_error_eq (r : ReplState) (e : String)
    (h : r.fetching_station = false) :
    REPL.fetchStationTracks r (Except.error e) =
      ({ r with fetching_station := false },
        [Msg.fetchingTracks, Msg.fetchError e]) := by
  unfold REPL.fetchStationTracks
  rw [if_neg (by simp [h])]

lemma next_from_idle (p : PlayerState) (hc : p.current_index = -1)
    (hq : p.queue ≠ []) (hm : p.repeat_mode ≠ RepeatMode.ONE) :
    Player.next p =
      (some (p.queue.head hq), { p with current_index := 0 }) := by
  have hlen : 0 < p.queue.length := List.length_pos.mpr hq
  unfold Player.next
  rw [if_neg hm,
    if_pos (show p.current_index + 1 < (p.queue.length : Int) by
      rw [hc]; omega)]
  dsimp only
  rw [hc]
  have h01 : ((-1 : Int) + 1) = 0 := by norm_num
  rw [h01]
  have hget : p.queue[(0 : Int).toNat]? = some (p.queue.head hq) := by
    rw [show (0 : Int).toNat = 0 from rfl, List.getElem?_eq_getElem hlen,
      List.getElem_zero hlen]
  rw [hget]

/-! ### Claim theorems -/

/-- C1: for every sequence of controller operations (playNow, enqueue,
next, prev, removeAt, shuffle, clear) starting from the empty queue with
cursor `-1`, the cursor is afterwards always either `-1` or a valid index
in `[0, len(Queue)-1]`; it is never below `-1` and never past
`len(Queue)-1`. -/
theorem cursor_invariant_reachable (s : PlayerState) (h : Reachable s) :
    cursorOK s := by
  induction h with
  | init => exact cursorOK_init
  | @step s op _ hv ih =>
      cases op with
      | playNow t => exact cursorOK_play_now s t
      | enqueue t => exact cursorOK_add_to_queue t ih
      | nextOp => exact cursorOK_next ih
      | prevOp => exact cursorOK_prev ih
      | removeAt i => exact cursorOK_remove_from_queue i ih
      | shuffleOp l => exact cursorOK_shuffle_queue hv ih
      | clearOp => exact cursorOK_clear_queue s

/-- Witness for C1 at a concrete run: enqueue two tracks, advance twice,
remove index 0, shuffle. -/
theorem cursor_invariant_reachable_witness :
    cursorOK
      (applyOp
        (applyOp
          (applyOp
            (applyOp
              (applyOp initState (Op.enqueue ⟨some 1, "a"⟩))
              (Op.enqueue ⟨some 2, "b"⟩))
            Op.nextOp)
          Op.nextOp)
        (Op.removeAt 0)) :=
  cursor_invariant_reachable _
    (Reachable.step
      (Reachable.step
        (Reachable.step
          (Reachable.step
            (Reachable.step Reachable.init trivial)
            trivial)
          trivial)
        trivial)
      trivial)

/-- C10: `current_track` is total over every queue and every integer
cursor value: it returns the element at the cursor when
`0 <= cursor < len(Queue)` and `none` for every other cursor value
(including `-1` and out-of-range indices); it never fails. -/
theorem current_track_total (q : List Track) (i : Int) (m : RepeatMode) :
    (∀ (h1 : 0 ≤ i) (h2 : i < (q.length : Int)),
        Player.current_track ⟨q, i, m⟩ = some (q.get ⟨i.toNat, by omega⟩))
    ∧ ((i < 0 ∨ (q.length : Int) ≤ i) →
        Player.current_track ⟨q, i, m⟩ = none) := by
  constructor
  · intro h1 h2
    unfold Player.current_track
    dsimp only
    rw [if_pos ⟨h1, h2⟩]
    simp [List.getElem?_eq_getElem, List.get_eq_getElem]
  · intro h
    unfold Player.current_track
    dsimp only
    rw [if_neg (by omega)]

/-- Witness for C10: an in-range cursor yields the pointed-to track, an
out-of-range cursor yields `none`. -/
theorem current_track_total_witness :
    Player.current_track ⟨[⟨some 1, "a"⟩, ⟨some 2, "b"⟩], 1, RepeatMode.OFF⟩ =
        some ⟨some 2, "b"⟩
    ∧ Player.current_track ⟨[⟨some 1, "a"⟩], 5, RepeatMode.OFF⟩ = none :=
  ⟨((current_track_total [⟨some 1, "a"⟩, ⟨some 2, "b"⟩] 1 RepeatMode.OFF).1
      (by decide) (by decide)).trans rfl,
   (current_track_total [⟨some 1, "a"⟩] 5 RepeatMode.OFF).2 (by decide)⟩

/-- C2: with repeat OFF, on a queue built by `enqueue` calls, repeated
`next()` calls strictly increase the cursor (after `k` calls it is
`min k len - 1`, so it climbs from `-1` by one per call) until it reaches
`len(Queue)-1`; once `len(Queue) <= k`, a further `next()` returns `none`
and leaves the state (hence the cursor) unchanged. -/
theorem repeat_off_run (l : List Track) (k : Nat) :
    (nextIter (enqueueAll l) k).current_index =
      ((min k l.length : Nat) : Int) - 1
    ∧ (l.length ≤ k →
        (Player.next (nextIter (enqueueAll l) k)).1 = none
        ∧ (Player.next (nextIter (enqueueAll l) k)).2 =
            nextIter (enqueueAll l) k) := by
  rw [enqueueAll_eq, nextIter_off]
  refine ⟨rfl, fun hk => ?_⟩
  rw [next_off, if_neg (by push_cast; omega)]
  exact ⟨rfl, rfl⟩

/-- Witness for C2 on a two-track queue after three `next()` calls. -/
theorem repeat_off_run_witness :
    (nextIter (enqueueAll [⟨some 1, "a"⟩, ⟨some 2, "b"⟩]) 3).current_index = 1
    ∧ (Player.next
        (nextIter (enqueueAll [⟨some 1, "a"⟩, ⟨some 2, "b"⟩]) 3)).1 = none :=
  ⟨((repeat_off_run [⟨some 1, "a"⟩, ⟨some 2, "b"⟩] 3).1).trans (by decide),
   ((repeat_off_run [⟨some 1, "a"⟩, ⟨some 2, "b"⟩] 3).2 (by decide)).1⟩

lemma nextIter_all (l : List Track) (h : l ≠ []) (j : Nat)
    (hj : j ≤ l.length) :
    nextIter ⟨l, 0, RepeatMode.ALL⟩ j =
      ⟨l, if (j : Int) < (l.length : Int) then (j : Int) else 0,
        RepeatMode.ALL⟩ := by
  induction j with
  | zero =>
      rw [nextIter]
      split_ifs <;> simp
  | succ j ih =>
      have hj' : j ≤ l.length := Nat.le_of_succ_le hj
      have hjlen : (j : Int) < (l.length : Int) := by
        omega
      rw [nextIter, ih hj', if_pos hjlen]
      unfold Player.next
      dsimp only
      rw [if_neg (by decide : ¬(RepeatMode.ALL = RepeatMode.ONE))]
      by_cases hc : (j : Int) + 1 < (l.length : Int)
      · rw [if_pos hc,
          if_pos (show ((j + 1 : Nat) : Int) < (l.length : Int) by
            push_cast; omega)]
        dsimp only
        simp only [PlayerState.mk.injEq, true_and, and_true]
        push_cast
        ring
      · rw [if_neg hc, if_pos ⟨rfl, h⟩,
          if_neg (show ¬((j + 1 : Nat) : Int) < (l.length : Int) by
            push_cast; omega)]

/-- C3: with repeat ALL and a non-empty queue, `len(Queue)` many `next()`
calls from cursor `0` return the cursor to `0`; and a single `next()` at
the last index sets the cursor to `0` and returns the track at index
`0`. -/
theorem repeat_all_cycle (l : List Track) (h : l ≠ []) :
    (nextIter ⟨l, 0, RepeatMode.ALL⟩ l.length).current_index = 0
    ∧ (Player.next
        ⟨l, (l.length : Int) - 1, RepeatMode.ALL⟩).2.current_index = 0
    ∧ (Player.next ⟨l, (l.length : Int) - 1, RepeatMode.ALL⟩).1 = l[0]? := by
  have hstep : Player.next ⟨l, (l.length : Int) - 1, RepeatMode.ALL⟩ =
      (l[0]?, ⟨l, 0, RepeatMode.ALL⟩) := by
    unfold Player.next
    dsimp only
    rw [if_neg (by decide : ¬(RepeatMode.ALL = RepeatMode.ONE))]
    rw [if_neg (by omega : ¬((l.length : Int) - 1 + 1 < (l.length : Int)))]
    rw [if_pos ⟨rfl, h⟩]
  refine ⟨?_, ?_, ?_⟩
  · rw [nextIter_all l h l.length le_rfl]
    rw [if_neg (by omega)]
  · rw [hstep]
  · rw [hstep]

/-- Witness for C3 on a three-track queue. -/
theorem repeat_all_cycle_witness :
    (nextIter ⟨[⟨some 1, "a"⟩, ⟨some 2, "b"⟩, ⟨some 3, "c"⟩], 0,
        RepeatMode.ALL⟩ 3).current_index = 0
    ∧ (Player.next ⟨[⟨some 1, "a"⟩, ⟨some 2, "b"⟩, ⟨some 3, "c"⟩], 2,
        RepeatMode.ALL⟩).1 = some ⟨some 1, "a"⟩ := by
  have h := repeat_all_cycle [⟨some 1, "a"⟩, ⟨some 2, "b"⟩, ⟨some 3, "c"⟩]
    (by decide)
  exact ⟨by simpa using h.1, by simpa using h.2.2⟩

/-- C4: `remove_from_queue` returns `false` and leaves the state
completely unchanged when the index is out of bounds or equals the
cursor; on success with `index < cursor` it removes exactly that element,
decrements the cursor by exactly one, and the current track afterwards is
the same track as before. -/
theorem remove_from_queue_spec (s : PlayerState) (i : Int) :
    ((¬(0 ≤ i ∧ i < (s.queue.length : Int)) ∨ i = s.current_index) →
        Player.remove_from_queue s i = (false, s))
    ∧ (0 ≤ i → i < (s.queue.length : Int) → i < s.current_index →
        Player.remove_from_queue s i =
          (true, { s with queue := s.queue.eraseIdx i.toNat,
                          current_index := s.current_index - 1 })
        ∧ Player.current_track (Player.remove_from_queue s i).2 =
            Player.current_track s) := by
  constructor
  · intro h
    unfold Player.remove_from_queue
    rcases h with h | h
    · rw [if_neg h]
    · by_cases h1 : 0 ≤ i ∧ i < (s.queue.length : Int)
      · rw [if_pos h1, if_pos h]
      · rw [if_neg h1]
  · intro h0 hlen hlt
    have hne : ¬ i = s.current_index := by omega
    have heq : Player.remove_from_queue s i =
        (true, { s with queue := s.queue.eraseIdx i.toNat,
                        current_index := s.current_index - 1 }) := by
      unfold Player.remove_from_queue
      rw [if_pos ⟨h0, hlen⟩, if_neg hne, if_pos hlt]
    refine ⟨heq, ?_⟩
    rw [heq]
    have hlen' : (s.queue.eraseIdx i.toNat).length = s.queue.length - 1 := by
      rw [List.length_eraseIdx]
      have hi : i.toNat < s.queue.length := by omega
      simp [hi]
    unfold Player.current_track
    dsimp only
    by_cases hc : 0 ≤ s.current_index ∧ s.current_index < (s.queue.length : Int)
    · have hcond : 0 ≤ s.current_index - 1 ∧
          s.current_index - 1 < ((s.queue.eraseIdx i.toNat).length : Int) := by
        rw [hlen']
        omega
      rw [if_pos hcond, if_pos hc,
        List.getElem?_eraseIdx_of_ge _ _ _ (by omega)]
      congr 1
      omega
    · have hcond : ¬(0 ≤ s.current_index - 1 ∧
          s.current_index - 1 < ((s.queue.eraseIdx i.toNat).length : Int)) := by
        rw [hlen']
        omega
      rw [if_neg hcond, if_neg hc]

/-- Witness for C4: removing index `0` below cursor `2` on a three-track
queue succeeds and keeps the current track; removing the cursor itself
fails without mutation. -/
theorem remove_from_queue_spec_witness :
    Player.remove_from_queue
        ⟨[⟨some 1, "a"⟩, ⟨some 2, "b"⟩, ⟨some 3, "c"⟩], 2, RepeatMode.OFF⟩ 0 =
      (true, ⟨[⟨some 2, "b"⟩, ⟨some 3, "c"⟩], 1, RepeatMode.OFF⟩)
    ∧ Player.remove_from_queue
        ⟨[⟨some 1, "a"⟩, ⟨some 2, "b"⟩, ⟨some 3, "c"⟩], 2, RepeatMode.OFF⟩ 2 =
      (false, ⟨[⟨some 1, "a"⟩, ⟨some 2, "b"⟩, ⟨some 3, "c"⟩], 2,
        RepeatMode.OFF⟩) :=
  ⟨((remove_from_queue_spec
      ⟨[⟨some 1, "a"⟩, ⟨some 2, "b"⟩, ⟨some 3, "c"⟩], 2, RepeatMode.OFF⟩ 0).2
      (by decide) (by decide) (by decide)).1.trans (by decide),
   (remove_from_queue_spec
      ⟨[⟨some 1, "a"⟩, ⟨some 2, "b"⟩, ⟨some 3, "c"⟩], 2, RepeatMode.OFF⟩ 2).1
      (Or.inr rfl)⟩

/-- C5: for every queue and every permutation produced by
`random.shuffle`, shuffling preserves the multiset of tracks; when a
current track exists beforehand, `current_track` afterwards is that same
track (the cursor-0 fallback only applies when the track cannot be found,
which the lookup precludes); when no current track exists and the cursor
is `-1`, it stays `-1`. -/
theorem shuffle_queue_spec (s : PlayerState) (shuffled : List Track)
    (hp : shuffled.Perm s.queue) :
    (Player.shuffle_queue s shuffled).queue.Perm s.queue
    ∧ (∀ t, Player.current_track s = some t →
        Player.current_track (Player.shuffle_queue s shuffled) = some t)
    ∧ (Player.current_track s = none → s.current_index = -1 →
        (Player.shuffle_queue s shuffled).current_index = -1) := by
  unfold Player.shuffle_queue
  split_ifs with h1
  · exact ⟨List.Perm.refl _, fun t ht => ht, fun _ h => h⟩
  · cases hc : Player.current_track s with
    | none =>
        dsimp only
        refine ⟨hp, ?_, ?_⟩
        · intro t ht
          exact Option.noConfusion ht
        · intro _ _
          rfl
    | some t0 =>
        dsimp only
        have hmem : t0 ∈ shuffled := hp.mem_iff.mpr (current_track_mem hc)
        rw [if_pos hmem]
        refine ⟨hp, ?_, ?_⟩
        · intro t ht
          cases ht
          have hidx : shuffled.indexOf t0 < shuffled.length :=
            List.indexOf_lt_length.mpr hmem
          unfold Player.current_track
          dsimp only
          rw [if_pos ⟨Int.natCast_nonneg _, by exact_mod_cast hidx⟩]
          have htn : ((shuffled.indexOf t0 : Nat) : Int).toNat =
              shuffled.indexOf t0 := by omega
          rw [htn, List.getElem?_eq_getElem hidx, List.getElem_indexOf hidx]
        · intro ht
          exact Option.noConfusion ht

/-- Witness for C5: shuffling `[a, b, c]` (cursor on `b`) into
`[c, a, b]` keeps the multiset and the current track. -/
theorem shuffle_queue_spec_witness :
    (Player.shuffle_queue
        ⟨[⟨some 1, "a"⟩, ⟨some 2, "b"⟩, ⟨some 3, "c"⟩], 1, RepeatMode.OFF⟩
        [⟨some 3, "c"⟩, ⟨some 1, "a"⟩, ⟨some 2, "b"⟩]).queue.Perm
      [⟨some 1, "a"⟩, ⟨some 2, "b"⟩, ⟨some 3, "c"⟩]
    ∧ Player.current_track
        (Player.shuffle_queue
          ⟨[⟨some 1, "a"⟩, ⟨some 2, "b"⟩, ⟨some 3, "c"⟩], 1, RepeatMode.OFF⟩
          [⟨some 3, "c"⟩, ⟨some 1, "a"⟩, ⟨some 2, "b"⟩]) =
      some ⟨some 2, "b"⟩ := by
  have hperm : ([⟨some 3, "c"⟩, ⟨some 1, "a"⟩, ⟨some 2, "b"⟩] :
      List Track).Perm [⟨some 1, "a"⟩, ⟨some 2, "b"⟩, ⟨some 3, "c"⟩] := by
    decide
  have h := shuffle_queue_spec
    ⟨[⟨some 1, "a"⟩, ⟨some 2, "b"⟩, ⟨some 3, "c"⟩], 1, RepeatMode.OFF⟩
    [⟨some 3, "c"⟩, ⟨some 1, "a"⟩, ⟨some 2, "b"⟩] hperm
  exact ⟨h.1, h.2.1 ⟨some 2, "b"⟩ (by decide)⟩

/-- C7: `_check_station_refill` schedules a background fetch exactly when
station mode is active, `remaining = len(Queue) - 1 - cursor` is strictly
below 5, and a continuation token is available (truthy); in particular
`remaining = 5` schedules nothing, and nothing is scheduled outside
station mode. -/
theorem check_station_refill_iff (r : ReplState) :
    REPL.checkStationRefill r = true ↔
      (r.station_mode = true
        ∧ (r.player.queue.length : Int) - 1 - r.player.current_index < 5
        ∧ hrefTruthy r.station_next_href = true) := by
  unfold REPL.checkStationRefill
  cases hsm : r.station_mode with
  | false => simp
  | true => simp

/-- C9: a `_fetch_station_tracks` call while `fetching_station` is true
returns at the guard with no change at all; and when the catalog call
raises, the error is caught and reported (a `fetchError` message), the
queue, seen-set and continuation token are unchanged, and the in-flight
flag is false after the call so a later refill can retry. -/
theorem fetch_guard_and_error (r : ReplState) (res : FetchResult)
    (e : String) :
    (r.fetching_station = true → REPL.fetchStationTracks r res = (r, []))
    ∧ (r.fetching_station = false →
        (REPL.fetchStationTracks r (Except.error e)).1.player = r.player
        ∧ (REPL.fetchStationTracks r (Except.error e)).1.seen_track_ids =
            r.seen_track_ids
        ∧ (REPL.fetchStationTracks r (Except.error e)).1.station_next_href =
            r.station_next_href
        ∧ (REPL.fetchStationTracks r (Except.error e)).1.fetching_station =
            false
        ∧ Msg.fetchError e ∈ (REPL.fetchStationTracks r (Except.error e)).2) := by
  constructor
  · intro h
    unfold REPL.fetchStationTracks
    rw [if_pos h]
  · intro h
    unfold REPL.fetchStationTracks
    rw [if_neg (by simp [h])]
    exact ⟨rfl, rfl, rfl, rfl, by simp⟩

/-- Witness for C9: the guard case on a flagged state and the error case
on an idle one. -/
theorem fetch_guard_and_error_witness :
    REPL.fetchStationTracks
        ⟨⟨[], -1, RepeatMode.OFF⟩, true, "q", none, ∅, true⟩
        (Except.ok ([⟨some 1, "a"⟩], none)) =
      (⟨⟨[], -1, RepeatMode.OFF⟩, true, "q", none, ∅, true⟩, [])
    ∧ (REPL.fetchStationTracks
        ⟨⟨[], -1, RepeatMode.OFF⟩, true, "q", none, ∅, false⟩
        (Except.error "timeout")).1.fetching_station = false
    ∧ Msg.fetchError "timeout" ∈
        (REPL.fetchStationTracks
          ⟨⟨[], -1, RepeatMode.OFF⟩, true, "q", none, ∅, false⟩
          (Except.error "timeout")).2 :=
  ⟨(fetch_guard_and_error
      ⟨⟨[], -1, RepeatMode.OFF⟩, true, "q", none, ∅, true⟩
      (Except.ok ([⟨some 1, "a"⟩], none)) "timeout").1 rfl,
   ((fetch_guard_and_error
      ⟨⟨[], -1, RepeatMode.OFF⟩, true, "q", none, ∅, false⟩
      (Except.ok ([], none)) "timeout").2 rfl).2.2.2.1,
   ((fetch_guard_and_error
      ⟨⟨[], -1, RepeatMode.OFF⟩, true, "q", none, ∅, false⟩
      (Except.ok ([], none)) "timeout").2 rfl).2.2.2.2⟩

/-- C6 counterexample: the claim says a returned track whose identifier is
not yet in `seenIds` has its identifier added and the track appended; but
the Python guard `if tid and tid not in self.seen_track_ids` also drops a
track whose identifier is `0` (falsy), so a fresh fetch returning one
track with identifier `0` appends nothing and records nothing. -/
theorem station_dedup_counterexample :
    (REPL.fetchStationTracks
        ⟨⟨[], -1, RepeatMode.OFF⟩, true, "q", none, ∅, false⟩
        (Except.ok ([⟨some 0, "z"⟩], none))).1.player.queue = []
    ∧ (0 : Nat) ∉ (REPL.fetchStationTracks
        ⟨⟨[], -1, RepeatMode.OFF⟩, true, "q", none, ∅, false⟩
        (Except.ok ([⟨some 0, "z"⟩], none))).1.seen_track_ids := by
  exact ⟨rfl, by decide⟩

/-- C6 (amended): within one station session — a `start_station` followed
by any sequence of `_fetch_station_tracks` calls — each identifier appears
in the queue at most once, and every identifier in the queue is recorded
in `seenIds`; a returned track is skipped when its identifier is falsy
(missing or `0`) or already in `seenIds`, otherwise it is recorded and
appended. -/
theorem station_dedup (r : ReplState) (query : String)
    (res res2 : FetchResult) (results : List FetchResult) :
    (queueIds (REPL.fetchSeq (REPL.startStation r query res res2).1
        results).player.queue).Nodup
    ∧ ∀ n ∈ queueIds (REPL.fetchSeq (REPL.startStation r query res res2).1
          results).player.queue,
        n ∈ (REPL.fetchSeq (REPL.startStation r query res res2).1
          results).seen_track_ids :=
  fetchSeq_inv results _ (startStation_inv r query res res2)

/-- C8 counterexample: with RepeatMode ONE set beforehand, `start_station`
adds tracks but does not start playback: `player.next()` returns the
current track — `None` at idle — so the kick from `start_station` leaves
the cursor at `-1` even though the fetch filled the queue. -/
theorem start_station_counterexample :
    (REPL.startStation ⟨⟨[], -1, RepeatMode.ONE⟩, false, "", none, ∅, false⟩
        "jazz" (Except.ok ([⟨some 1, "a"⟩], none))
        (Except.ok ([], none))).1.player.queue = [⟨some 1, "a"⟩]
    ∧ (REPL.startStation ⟨⟨[], -1, RepeatMode.ONE⟩, false, "", none, ∅, false⟩
        "jazz" (Except.ok ([⟨some 1, "a"⟩], none))
        (Except.ok ([], none))).1.player.current_index = -1 :=
  ⟨rfl, rfl⟩

/-- C8 (amended): `start_station` resets the station state (fresh
seen-set, null continuation token), clears the queue and performs one
synchronous fetch; when that fetch leaves the queue empty, station mode is
aborted with a reported error and the queue remains empty; when tracks
were added and RepeatMode is not ONE, playback starts by advancing from
IDLE (cursor `0`); with RepeatMode ONE, `next()` returns none at IDLE and
no advance happens. -/
theorem start_station_spec (r : ReplState) (q : String)
    (res res2 : FetchResult) (e : String) :
    ((REPL.startStation r q res res2).1.player.queue = [] →
        (REPL.startStation r q res res2).1.station_mode = false
        ∧ Msg.couldNotStart ∈ (REPL.startStation r q res res2).2)
    ∧ ((REPL.startStation r q res res2).1.player.queue ≠ [] →
        r.player.repeat_mode ≠ RepeatMode.ONE →
        (REPL.startStation r q res res2).1.station_mode = true
        ∧ (REPL.startStation r q res res2).1.player.current_index = 0)
    ∧ ((REPL.startStation r q (Except.error e) res2).1.player.queue = []
        ∧ (REPL.startStation r q (Except.error e) res2).1.seen_track_ids = ∅
        ∧ (REPL.startStation r q (Except.error e)
            res2).1.station_next_href = none
        ∧ (REPL.startStation r q (Except.error e)
            res2).1.station_mode = false) := by
  unfold REPL.startStation
  dsimp only
  set r0 : ReplState :=
    { r with station_mode := true, station_query := q,
             seen_track_ids := ∅, station_next_href := none,
             player := Player.clear_queue r.player } with hr0
  refine ⟨?_, ?_, ?_⟩
  · by_cases hq : (REPL.fetchStationTracks r0 res).1.player.queue ≠ []
    · rw [if_pos hq]
      intro hempty
      obtain ⟨ext, hext⟩ :=
        nextTrack_queue_ext (REPL.fetchStationTracks r0 res).1 res2
      rw [hext] at hempty
      exact absurd (List.append_eq_nil.mp hempty).1 hq
    · rw [if_neg hq]
      intro _
      refine ⟨rfl, ?_⟩
      simp
  · by_cases hq : (REPL.fetchStationTracks r0 res).1.player.queue ≠ []
    · rw [if_pos hq]
      intro _ hone
      by_cases hfl : r.fetching_station = true
      · exfalso
        have hg := fetch_guard_eq r0 res (by exact hfl)
        rw [hg] at hq
        exact hq rfl
      · have hfc := fetch_cleared r0 res rfl (by simpa using hfl)
        have hrm : (REPL.fetchStationTracks r0 res).1.player.repeat_mode =
            r.player.repeat_mode := hfc.2
        unfold REPL.nextTrack
        rw [next_from_idle (REPL.fetchStationTracks r0 res).1.player hfc.1 hq
          (by rw [hrm]; exact hone)]
        dsimp only
        refine ⟨?_, rfl⟩
        show (REPL.fetchStationTracks r0 res).1.station_mode = true
        rw [fetch_station_mode]
    · rw [if_neg hq]
      intro hne _
      exact absurd (not_not.mp hq) hne
  · by_cases hfl : r.fetching_station = true
    · rw [fetch_guard_eq r0 (Except.error e) (by exact hfl),
        if_neg (fun h => h rfl)]
      exact ⟨rfl, rfl, rfl, rfl⟩
    · rw [fetch_error_eq r0 e (by simpa using hfl),
        if_neg (fun h => h rfl)]
      exact ⟨rfl, rfl, rfl, rfl⟩

/-- Witness for C8: an OFF-mode player starting a station whose first
fetch returns one track begins playing it (cursor `0`); a first fetch
returning nothing aborts station mode with the failure message. -/
theorem start_station_spec_witness :
    (REPL.startStation ⟨⟨[], -1, RepeatMode.OFF⟩, false, "", none, ∅, false⟩
        "jazz" (Except.ok ([⟨some 1, "a"⟩], none))
        (Except.ok ([], none))).1.station_mode = true
    ∧ (REPL.startStation ⟨⟨[], -1, RepeatMode.OFF⟩, false, "", none, ∅, false⟩
        "jazz" (Except.ok ([⟨some 1, "a"⟩], none))
        (Except.ok ([], none))).1.player.current_index = 0
    ∧ (REPL.startStation ⟨⟨[], -1, RepeatMode.OFF⟩, false, "", none, ∅, false⟩
        "jazz" (Except.ok ([], none))
        (Except.ok ([], none))).1.station_mode = false :=
  ⟨((start_station_spec ⟨⟨[], -1, RepeatMode.OFF⟩, false, "", none, ∅, false⟩
      "jazz" (Except.ok ([⟨some 1, "a"⟩], none)) (Except.ok ([], none))
      "x").2.1 (by decide) (by decide)).1,
   ((start_station_spec ⟨⟨[], -1, RepeatMode.OFF⟩, false, "", none, ∅, false⟩
      "jazz" (Except.ok ([⟨some 1, "a"⟩], none)) (Except.ok ([], none))
      "x").2.1 (by decide) (by decide)).2,
   ((start_station_spec ⟨⟨[], -1, RepeatMode.OFF⟩, false, "", none, ∅, false⟩
      "jazz" (Except.ok ([], none)) (Except.ok ([], none))
      "x").1 rfl).1⟩

end ScCli
